import Mathlib

set_option maxRecDepth 40000
set_option maxHeartbeats 1000000

/-
Verification of motion/optimizers/map_optimizer/config_generators.py
(class ConfigGenerator).

The Python source is embedded shallowly:
  - Python strings are Lean String values; str.split() and str.replace are
    re-implemented character by character below.
  - Records (dicts of the data sample) are association lists of
    field-name/value pairs; dict indexing that can raise is an Option.
  - The language-model oracle is an external collaborator: each planner
    takes the parsed, schema-conformant oracle response as an argument.
  - Python float arithmetic on document statistics is modelled exactly:
    int(x) is truncation toward zero of the exact value, carried out in
    integer arithmetic (pyTruncDiv), and int(count * (a / c) ** 0.5) is
    the integer square root of count * count * a // c, which equals the
    exact real value floor(count * sqrt(a / c)). The specification-side
    rational average ratAvg appears only in theorem statements.
  - random.choice / random.randint draws are parameterised by the drawn
    value; random.randint(lo, hi) with hi < lo raises ValueError, which is
    modelled as none.
-/

/-! ## Python string primitives -/

/-- Whitespace characters recognized by Python str.split() with no
arguments. -/
def pyIsSpace (c : Char) : Bool :=
  c = ' ' || c = '\t' || c = '\n' || c = '\r' || c = '\x0B' || c = '\x0C'

/-- Helper for pySplitWhitespace: walks the characters, accumulating the
current word reversed. -/
def splitWordsAux : List Char → List Char → List (List Char)
  | [], [] => []
  | [], cur => [cur.reverse]
  | c :: rest, cur =>
    if pyIsSpace c then
      if cur.isEmpty then splitWordsAux rest []
      else cur.reverse :: splitWordsAux rest []
    else splitWordsAux rest (c :: cur)

/-- Python str.split() with no arguments: maximal runs of non-whitespace
characters, with no empty words. -/
def pySplitWhitespace (s : String) : List String :=
  (splitWordsAux s.data []).map List.asString

/-- Word count of a string, as computed by len(s.split()) in the source. -/
def wordCount (s : String) : Nat :=
  (pySplitWhitespace s).length

/-- Python str.replace(pat, rep): replaces every non-overlapping occurrence
of pat, scanning left to right and continuing after each replacement. The
fuel argument starts at the length of the text, which one step of the scan
always decreases, so the fuel never runs out before the text does. -/
def listReplaceFuel (pat rep : List Char) : Nat → List Char → List Char
  | 0, l => l
  | _ + 1, [] => []
  | fuel + 1, c :: rest =>
    if pat ≠ [] ∧ pat.isPrefixOf (c :: rest) then
      rep ++ listReplaceFuel pat rep fuel (rest.drop (pat.length - 1))
    else
      c :: listReplaceFuel pat rep fuel rest

/-- Python s.replace(pat, rep) on Lean strings. -/
def pyReplace (s pat rep : String) : String :=
  (listReplaceFuel pat.data rep.data s.data.length s.data).asString

/-- Line 103 of the source: result["split_key"].replace("input.", "").
Note that Python str.replace removes every occurrence of "input.", not
only a leading one. -/
def stripInputKey (s : String) : String :=
  pyReplace s "input." ""

/-- A definition following the words of the specification sentence for C1
("after stripping any input. prefix"): remove one leading occurrence of
"input." and nothing else. This is the spec-side counterpart of
stripInputKey, used to compare the claim with the code. -/
def specStripLeadingInput (s : String) : String :=
  if "input.".data.isPrefixOf s.data then (s.data.drop 6).asString else s

/-! ## Data-sample records -/

/-- A record of the data sample: an association list from field names to
string values (the values only ever flow into word counts and prompts). -/
abbrev Record := List (String × String)

/-- The field names of a record (Python: membership test `k in d` on a
dict). -/
def recordKeys (r : Record) : List String := r.map Prod.fst

/-- Python d[k] on a record, as an Option (none models KeyError). -/
def pyLookup (r : Record) (k : String) : Option String :=
  (r.find? (fun p => p.1 == k)).map Prod.snd

/-! ## Jinja templates

Modelled from the spec: extract_jinja_variables and the variable
substitution syntax live in motion/optimizers/utils, outside this file.
Following section 6 of the spec (Template Variable Extraction), a template
is a sequence of literal text pieces and variable references; extraction
returns the referenced variable paths, and substitution rewrites every
occurrence of a given variable reference to a replacement reference. -/

/-- One token of a Jinja template: literal text or a variable reference. -/
inductive JinjaToken where
  | text (s : String)
  | var (v : String)
deriving DecidableEq, Repr

/-- A Jinja template is a sequence of tokens. -/
abbrev JinjaTemplate := List JinjaToken

/-- Modelled from the spec: extract_jinja_variables (external utility)
returns the variable paths referenced by a template, in order. -/
def extract_jinja_variables (t : JinjaTemplate) : List String :=
  t.filterMap (fun tok =>
    match tok with
    | .var v => some v
    | .text _ => none)

/-- Substitution of one variable reference: every reference to v becomes a
reference to repl (the source performs this with
subprompt.replace("{\x7b v }\x7d", "{\x7b input.chunk_content }\x7d")). -/
def substVar (v repl : String) (t : JinjaTemplate) : JinjaTemplate :=
  t.map (fun tok =>
    match tok with
    | .var w => if w = v then .var repl else .var w
    | .text s => .text s)

/-- Lines 111-117 of the source: for each variable extracted from the
subprompt, replace its references with the canonical chunk-content
variable. -/
def rewriteSubprompt (t : JinjaTemplate) : JinjaTemplate :=
  (extract_jinja_variables t).foldl
    (fun acc v => substVar v "input.chunk_content" acc) t

/-! ## Split Planner (_get_split_config) -/

/-- The exceptions _get_split_config can raise while validating:
IndexError from input_data_sample[0] on an empty sample, and the
ValueError of lines 107-109 for a split key missing from the first
record. -/
inductive SplitError where
  | indexError
  | valueError (split_key : String)
deriving DecidableEq, Repr

/-- The parsed oracle response for the split query: the two required
string fields of the declared schema (the subprompt already parsed as a
template). -/
structure SplitResponse where
  split_key : String
  subprompt : JinjaTemplate
deriving DecidableEq, Repr

/-- The split configuration returned on success. -/
structure SplitPlan where
  split_key : String
  subprompt : JinjaTemplate
deriving DecidableEq, Repr

/-- Lines 100-123 of _get_split_config, from the point where the oracle
response is parsed (the preceding lines 45-99 only build the prompt sent
to the oracle, whose parsed response is the resp argument; the
random.choice there reads the sample but does not influence the result).
Order of operations follows the source: strip "input." from the split
key, index input_data_sample[0] (IndexError on an empty sample), raise
ValueError if the key is not a field of that record, then rewrite every
extracted subprompt variable to input.chunk_content. -/
def get_split_config (sample : List Record) (resp : SplitResponse) :
    Except SplitError SplitPlan :=
  let split_key := stripInputKey resp.split_key
  match sample.head? with
  | none => .error .indexError
  | some r0 =>
    if split_key ∈ recordKeys r0 then
      .ok { split_key := split_key, subprompt := rewriteSubprompt resp.subprompt }
    else
      .error (.valueError split_key)

/-! ## Metadata Planner (_determine_metadata_needs) -/

/-- The parsed oracle response of _check_metadata_necessity: the two
required fields of its declared schema. -/
structure NecessityResult where
  needs_metadata : Bool
  reason : String
deriving DecidableEq, Repr

/-- The parsed oracle response of the metadata-config query: the two
required fields of its declared schema. -/
structure MetadataOracleResult where
  metadata_prompt : String
  output_schema : List (String × String)
deriving DecidableEq, Repr

/-- A metadata plan as a dict with the keys that can occur: the necessity
branch carries needs_metadata and reason; the config branch carries
needs_metadata, metadata_prompt and output_schema. Absent keys are none. -/
structure MetadataPlan where
  needs_metadata : Bool
  reason : Option String
  metadata_prompt : Option String
  output_schema : Option (List (String × String))
deriving DecidableEq, Repr

/-- _check_metadata_necessity (lines 144-242): samples a chunk, queries
the oracle and returns the parsed response; the sampling only grounds the
prompt, so the function is the identity on the parsed response. -/
def check_metadata_necessity (resp : NecessityResult) : NecessityResult :=
  resp

/-- Modelled from the spec: _generate_and_validate_prompt is defined
outside this file (only its call site is in src). Per sections 4.2 and 6
of the spec it submits the request and returns the oracle's
schema-conformant structured result, so it is the identity on the parsed
response; it never sees the necessity result. -/
def generate_and_validate_prompt (resp : MetadataOracleResult) :
    MetadataOracleResult :=
  resp

/-- The dict returned by _check_metadata_necessity, viewed as a
MetadataPlan (keys needs_metadata and reason only). -/
def necessityToPlan (n : NecessityResult) : MetadataPlan :=
  { needs_metadata := n.needs_metadata
    reason := some n.reason
    metadata_prompt := none
    output_schema := none }

/-- _get_metadata_config (lines 244-295): obtains metadata_prompt and
output_schema via _generate_and_validate_prompt and then sets
result["needs_metadata"] = True. The necessity result's reason is not an
input and does not appear in the returned dict. -/
def get_metadata_config (resp : MetadataOracleResult) : MetadataPlan :=
  let result := generate_and_validate_prompt resp
  { needs_metadata := true
    reason := none
    metadata_prompt := some result.metadata_prompt
    output_schema := some result.output_schema }

/-- _determine_metadata_needs (lines 125-142). The second component
counts the oracle calls made: the necessity check is one call, and the
config derivation, when it runs, is a second one. -/
def determine_metadata_needs (necResp : NecessityResult)
    (configResp : MetadataOracleResult) : MetadataPlan × Nat :=
  let needs_metadata := check_metadata_necessity necResp
  if needs_metadata.needs_metadata then
    (get_metadata_config configResp, 2)
  else
    (necessityToPlan needs_metadata, 1)

/-! ## Context Planner sampling (_determine_context_needs, lines 307-324) -/

/-- Python random.randint(lo, hi): a uniform draw from [lo, hi], or
ValueError (none) when the range is empty. The drawn value is determined
by the entropy parameter r; as r ranges over the naturals the results
range over exactly [lo, hi]. -/
def pyRandint (lo hi : Int) (r : Nat) : Option Int :=
  if hi < lo then none else some (lo + (r : Int) % (hi - lo + 1))

/-- Lines 307-324 of _determine_context_needs: pick a random record
(random.choice, index choice % length), read its split-key field, split
it into words, and compute
start_index = max(0, random.randint(0, len(words) - chunk_size)).
Note the max(0, ...) is applied to the result of random.randint, outside
the call, so the randint range itself is [0, len(words) - chunk_size]. -/
def determine_context_start (sample : List Record) (split_key : String)
    (chunk_size : Nat) (choice r : Nat) : Option Int :=
  match sample[choice % sample.length]? with
  | none => none
  | some sample_input =>
    match pyLookup sample_input split_key with
    | none => none
    | some content =>
      let words := pySplitWhitespace content
      (pyRandint 0 ((words.length : Int) - (chunk_size : Int)) r).map
        (fun start_index => max 0 start_index)

/-! ## Chunk-Size Space Generator (_generate_chunk_sizes, lines 376-392) -/

/-- Python int(num / den) for den > 0: truncation toward zero of the
exact fraction. For a nonnegative numerator this is floor division; for a
negative one it is the negated floor division of the absolute value. -/
def pyTruncDiv (num den : Int) : Int :=
  if 0 ≤ num then num / den else -((-num) / den)

/-- The mean of a list of word counts, as an exact rational. This is the
specification-side value of the float avg_doc_length the source computes;
the executable code below works with exact integer arithmetic instead. -/
def ratAvg (counts : List Nat) : ℚ :=
  (counts.sum : ℚ) / (counts.length : ℚ)

/-- The core of _generate_chunk_sizes on the per-document word counts,
in exact arithmetic:
max_chunk_size = int(avg / 2) = int((sum / len) / 2), which for the
nonnegative sum is the integer division sum / (2 * len); and
sizes[i] = int(100 + i * (max_chunk_size - 100) / (num_chunks - 1)),
where putting the mixed expression over the single positive denominator
num_chunks - 1 gives the numerator
100 * (num_chunks - 1) + i * (max_chunk_size - 100), truncated by
pyTruncDiv. -/
def chunkSizesOfCounts (counts : List Nat) (num_chunks : Nat) : List Int :=
  let max_chunk_size : Int := (counts.sum / (2 * counts.length) : Nat)
  (List.range num_chunks).map (fun i =>
    pyTruncDiv (100 * ((num_chunks : Int) - 1) + (i : Int) * (max_chunk_size - 100))
      ((num_chunks : Int) - 1))

/-- len(doc[split_key].split()) for each doc of the sample; none models
the KeyError raised when a record lacks the split key. -/
def recordWordCounts (split_key : String) (sample : List Record) :
    Option (List Nat) :=
  sample.mapM (fun doc => (pyLookup doc split_key).map wordCount)

/-- _generate_chunk_sizes. The guards return none exactly when the Python
code raises: an empty sample divides by len(input_data_sample) = 0, a
missing split key raises KeyError, and num_chunks = 1 divides by
num_chunks - 1 = 0 while producing the first element. -/
def generate_chunk_sizes (split_key : String) (sample : List Record)
    (num_chunks : Nat) : Option (List Int) :=
  if sample.isEmpty ∨ num_chunks = 1 then none
  else (recordWordCounts split_key sample).map
    (fun counts => chunkSizesOfCounts counts num_chunks)

/-! ## Peripheral-Config Space Generator (_generate_peripheral_configs) -/

/-- One zone of peripheral context ({"count": n} and/or
{"type": "summary"}); absent dict keys are none. -/
structure ZoneCfg where
  count : Option Nat
  type : Option String
deriving DecidableEq, Repr

/-- One direction of peripheral context, with the zones that can occur as
keys ("head", "middle", "tail"); absent keys are none. -/
structure DirCfg where
  head : Option ZoneCfg := none
  middle : Option ZoneCfg := none
  tail : Option ZoneCfg := none
deriving DecidableEq, Repr

/-- A peripheral configuration: the optional "previous" and "next"
directions. Structural equality of these structures coincides with
Python dict equality because the key universe is fixed. -/
structure PeripheralConfig where
  previous : Option DirCfg := none
  next : Option DirCfg := none
deriving DecidableEq, Repr

/-- The empty configuration: no peripheral context. -/
def emptyConfig : PeripheralConfig := {}

/-- Line 422: max_chunks = max(1, avg_doc_size // chunk_size). -/
def maxChunksOf (chunk_size avg_doc_size : Nat) : Nat :=
  max 1 (avg_doc_size / chunk_size)

/-- Helper for natSqrt: the largest k at most the fuel with k * k ≤ n. -/
def natSqrtAux (n : Nat) : Nat → Nat
  | 0 => 0
  | k + 1 => if (k + 1) * (k + 1) ≤ n then k + 1 else natSqrtAux n k

/-- Integer square root: the largest k with k * k ≤ n. -/
def natSqrt (n : Nat) : Nat := natSqrtAux n n

/-- Lines 438-441: min(max_chunks, max(1, int(count * (avg / chunk) ** 0.5))).
The inner value equals the exact real floor(count * sqrt(avg / chunk)),
which is the integer square root of count * count * avg / chunk. -/
def scaledCount (chunk_size avg_doc_size max_chunks count : Nat) : Nat :=
  min max_chunks (max 1 (natSqrt (count * count * avg_doc_size / chunk_size)))

/-- Scale one zone's count (lines 437-442); zones of the base
configurations always carry a count. -/
def scaleZone (chunk_size avg_doc_size max_chunks : Nat) (z : ZoneCfg) :
    ZoneCfg :=
  { z with count := z.count.map (scaledCount chunk_size avg_doc_size max_chunks) }

/-- Scale every zone of a direction (the loop over parts). -/
def scaleDir (chunk_size avg_doc_size max_chunks : Nat) (d : DirCfg) : DirCfg :=
  { head := d.head.map (scaleZone chunk_size avg_doc_size max_chunks)
    middle := d.middle.map (scaleZone chunk_size avg_doc_size max_chunks)
    tail := d.tail.map (scaleZone chunk_size avg_doc_size max_chunks) }

/-- Scale both directions of a configuration (the loop over
["previous", "next"], lines 432-443). -/
def scaleConfig (chunk_size avg_doc_size max_chunks : Nat)
    (cfg : PeripheralConfig) : PeripheralConfig :=
  { previous := cfg.previous.map (scaleDir chunk_size avg_doc_size max_chunks)
    next := cfg.next.map (scaleDir chunk_size avg_doc_size max_chunks) }

/-- Line 426: the first base configuration, one chunk of previous tail. -/
def baseConfig1 : PeripheralConfig :=
  { previous := some { tail := some { count := some 1, type := none } } }

/-- Line 427: the second base configuration, one previous tail chunk plus
one next head chunk. -/
def baseConfig2 : PeripheralConfig :=
  { previous := some { tail := some { count := some 1, type := none } }
    next := some { head := some { count := some 1, type := none } } }

/-- Lines 425-428: the two base configurations. -/
def base_configs : List PeripheralConfig := [baseConfig1, baseConfig2]

/-- Lines 449-452: the extensive-context configuration. -/
def extensiveConfig (max_chunks : Nat) : PeripheralConfig :=
  { previous := some { tail := some { count := some (min 5 max_chunks), type := none } }
    next := some { head := some { count := some (min 2 max_chunks), type := none } } }

/-- Lines 458-465: the summary variant of a configuration. A missing
"previous" direction is synthesized as {"tail": {"count": 1,
"type": "summary"}}; then "previous"."middle" is set to
{"type": "summary"}. -/
def summarizeConfig (cfg : PeripheralConfig) : PeripheralConfig :=
  let prev := cfg.previous.getD
    { tail := some { count := some 1, type := some "summary" } }
  { cfg with
    previous := some { prev with middle := some { count := none, type := some "summary" } } }

/-- Lines 469-473: deduplication preserving first occurrences, exactly as
the Python loop appends each config not already in the accumulator. -/
def pyDedup {α : Type} [DecidableEq α] : List α → List α → List α
  | acc, [] => acc
  | acc, c :: rest =>
    if c ∈ acc then pyDedup acc rest else pyDedup (acc ++ [c]) rest

/-- Lines 420-453 of _generate_peripheral_configs: the configurations
collected before the summary step. The float comparison
chunk_size < avg_doc_size / 10 is the exact integer comparison
10 * chunk_size < avg_doc_size. -/
def peripheralPreSummary (chunk_size avg_doc_size : Nat) :
    List PeripheralConfig :=
  let max_chunks := maxChunksOf chunk_size avg_doc_size
  let scaled_configs :=
    base_configs.map (scaleConfig chunk_size avg_doc_size max_chunks)
  let final_configs := [emptyConfig] ++ scaled_configs
  if 10 * chunk_size < avg_doc_size then final_configs ++ [extensiveConfig max_chunks]
  else final_configs

/-- _generate_peripheral_configs (lines 394-475): the pre-summary
configurations, extended with their summary variants when
chunk_size < avg_doc_size / 5 (exactly: 5 * chunk_size < avg_doc_size),
then deduplicated. -/
def generate_peripheral_configs (chunk_size avg_doc_size : Nat) :
    List PeripheralConfig :=
  let final_configs := peripheralPreSummary chunk_size avg_doc_size
  let final_configs :=
    if 5 * chunk_size < avg_doc_size then
      final_configs ++ final_configs.map summarizeConfig
    else final_configs
  pyDedup [] final_configs

/-- All count values appearing in a zone. -/
def zoneCounts (z : Option ZoneCfg) : List Nat :=
  match z with
  | none => []
  | some zc => zc.count.toList

/-- All count values appearing in a direction, over its zones. -/
def dirCounts (d : Option DirCfg) : List Nat :=
  match d with
  | none => []
  | some dc => zoneCounts dc.head ++ zoneCounts dc.middle ++ zoneCounts dc.tail

/-- All count values appearing anywhere in a configuration. -/
def cfgCounts (cfg : PeripheralConfig) : List Nat :=
  dirCounts cfg.previous ++ dirCounts cfg.next

/-! ## Concrete documents used as inputs in the theorems below -/

/-- The characters of a document of n single-letter words separated by
single spaces. -/
def docChars : Nat → List Char
  | 0 => []
  | 1 => ['a']
  | n + 2 => 'a' :: ' ' :: docChars (n + 1)

/-- A document of exactly n words. -/
def docOf (n : Nat) : String := ⟨docChars n⟩

/-! ## Helper lemmas -/

theorem splitWordsAux_docChars (n : Nat) :
    splitWordsAux (docChars (n + 1)) [] = List.replicate (n + 1) ['a'] := by
  induction n with
  | zero => rfl
  | succ k ih =>
    calc splitWordsAux (docChars (k + 2)) []
        = splitWordsAux (' ' :: docChars (k + 1)) ['a'] := by
          simp [docChars, splitWordsAux, show pyIsSpace 'a' = false from rfl]
      _ = ['a'] :: splitWordsAux (docChars (k + 1)) [] := by
          simp [splitWordsAux, show pyIsSpace ' ' = true from rfl]
      _ = List.replicate (k + 2) ['a'] := by rw [ih]; rfl

theorem wordCount_docOf (n : Nat) : wordCount (docOf (n + 1)) = n + 1 := by
  show (((splitWordsAux (docChars (n + 1)) []).map List.asString).length) = n + 1
  rw [splitWordsAux_docChars]
  simp

theorem pyDedup_mem {α : Type} [DecidableEq α] (l acc : List α) (x : α)
    (h : x ∈ pyDedup acc l) : x ∈ acc ∨ x ∈ l := by
  induction l generalizing acc with
  | nil => exact Or.inl h
  | cons c rest ih =>
    rw [pyDedup] at h
    by_cases hc : c ∈ acc
    · rw [if_pos hc] at h
      rcases ih acc h with h1 | h1
      · exact Or.inl h1
      · exact Or.inr (List.mem_cons_of_mem c h1)
    · rw [if_neg hc] at h
      rcases ih (acc ++ [c]) h with h1 | h1
      · rcases List.mem_append.mp h1 with h2 | h2
        · exact Or.inl h2
        · exact Or.inr (List.mem_cons.mpr (Or.inl (List.mem_singleton.mp h2)))
      · exact Or.inr (List.mem_cons_of_mem c h1)

theorem pyDedup_extends {α : Type} [DecidableEq α] (l acc : List α) :
    ∃ t, pyDedup acc l = acc ++ t := by
  induction l generalizing acc with
  | nil => exact ⟨[], (List.append_nil acc).symm⟩
  | cons c rest ih =>
    rw [pyDedup]
    by_cases hc : c ∈ acc
    · rw [if_pos hc]; exact ih acc
    · rw [if_neg hc]
      obtain ⟨t, ht⟩ := ih (acc ++ [c])
      exact ⟨c :: t, by rw [ht, List.append_assoc]; rfl⟩

theorem pyDedup_nodup {α : Type} [DecidableEq α] (l acc : List α)
    (hacc : acc.Nodup) : (pyDedup acc l).Nodup := by
  induction l generalizing acc with
  | nil => exact hacc
  | cons c rest ih =>
    rw [pyDedup]
    by_cases hc : c ∈ acc
    · rw [if_pos hc]; exact ih acc hacc
    · rw [if_neg hc]
      refine ih (acc ++ [c]) ?_
      rw [List.nodup_append]
      exact ⟨hacc, List.nodup_singleton c,
        fun a ha hb => hc (by rwa [List.mem_singleton.mp hb] at ha)⟩

theorem pyDedup_head {α : Type} [DecidableEq α] (x : α) (l : List α) :
    (pyDedup [] (x :: l)).head? = some x := by
  rw [pyDedup, if_neg (List.not_mem_nil x)]
  obtain ⟨t, ht⟩ := pyDedup_extends l ([] ++ [x])
  rw [ht]
  rfl

theorem mem_substVar {w u r : String} {t : JinjaTemplate}
    (h : JinjaToken.var w ∈ substVar u r t) :
    w = r ∨ (JinjaToken.var w ∈ t ∧ w ≠ u) := by
  rcases List.mem_map.mp h with ⟨tok, htok, heq⟩
  cases tok with
  | text s => simp at heq
  | var x =>
    by_cases hx : x = u
    · subst hx
      simp at heq
      exact Or.inl heq.symm
    · simp [hx] at heq
      subst heq
      exact Or.inr ⟨htok, hx⟩

theorem foldl_substVar_canonical (vs : List String) :
    ∀ acc : JinjaTemplate,
      (∀ w, JinjaToken.var w ∈ acc → w ∈ vs ∨ w = "input.chunk_content") →
      ∀ v, JinjaToken.var v ∈
          vs.foldl (fun acc v => substVar v "input.chunk_content" acc) acc →
        v = "input.chunk_content" := by
  induction vs with
  | nil =>
    intro acc hacc v hv
    rcases hacc v hv with h | h
    · exact absurd h (List.not_mem_nil v)
    · exact h
  | cons u rest ih =>
    intro acc hacc v hv
    rw [List.foldl_cons] at hv
    refine ih (substVar u "input.chunk_content" acc) ?_ v hv
    intro w hw
    rcases mem_substVar hw with h | ⟨hmem, hne⟩
    · exact Or.inr h
    · rcases hacc w hmem with hmem2 | hC
      · rcases List.mem_cons.mp hmem2 with he | hr
        · exact absurd he hne
        · exact Or.inl hr
      · exact Or.inr hC

theorem rewriteSubprompt_canonical (t : JinjaTemplate) :
    ∀ v, JinjaToken.var v ∈ rewriteSubprompt t → v = "input.chunk_content" := by
  refine foldl_substVar_canonical (extract_jinja_variables t) t ?_
  intro w hw
  exact Or.inl (List.mem_filterMap.mpr ⟨JinjaToken.var w, hw, rfl⟩)

theorem get_split_config_ok_subprompt {sample : List Record}
    {resp : SplitResponse} {plan : SplitPlan}
    (h : get_split_config sample resp = .ok plan) :
    plan.subprompt = rewriteSubprompt resp.subprompt := by
  unfold get_split_config at h
  split at h
  · exact absurd h (by simp)
  · rename_i r0 heq
    have h2 : (if stripInputKey resp.split_key ∈ recordKeys r0 then
        Except.ok { split_key := stripInputKey resp.split_key,
                    subprompt := rewriteSubprompt resp.subprompt }
      else
        Except.error (SplitError.valueError (stripInputKey resp.split_key))) =
        Except.ok plan := h
    split at h2
    · have h3 := Except.ok.inj h2
      rw [← h3]
    · exact absurd h2 (by simp)

theorem ediv4_lt_ediv4_add (x d : Int) (hd : 4 ≤ d) : x / 4 < (x + d) / 4 := by
  have h1 : (x + 1 * 4) / 4 = x / 4 + 1 :=
    Int.add_mul_ediv_right x 1 (by norm_num)
  have h2 : (x + 1 * 4) / 4 ≤ (x + d) / 4 :=
    Int.ediv_le_ediv (by norm_num) (by linarith)
  omega

theorem maxChunk_eq_floor (counts : List Nat) :
    ((counts.sum / (2 * counts.length) : Nat) : Int) = ⌊ratAvg counts / 2⌋ := by
  obtain ⟨S, hS⟩ : ∃ S, counts.sum = S := ⟨_, rfl⟩
  obtain ⟨L, hL⟩ : ∃ L, counts.length = L := ⟨_, rfl⟩
  rw [ratAvg, hS, hL, div_div]
  rw [show ((S : ℚ)) / ((L : ℚ) * 2) = (((S : Int)) : ℚ) / (((2 * L : Nat)) : ℚ) by
    push_cast; ring]
  rw [Rat.floor_intCast_div_natCast]
  exact Int.ofNat_ediv S (2 * L)

theorem chunkSizes_core (counts : List Nat)
    (h104 : 104 ≤ counts.sum / (2 * counts.length)) :
    (chunkSizesOfCounts counts 5).length = 5 ∧
    List.Chain' (· < ·) (chunkSizesOfCounts counts 5) ∧
    (chunkSizesOfCounts counts 5).head? = some 100 ∧
    (chunkSizesOfCounts counts 5).getLast? =
      some ((counts.sum / (2 * counts.length) : Nat) : Int) := by
  set m : Int := ((counts.sum / (2 * counts.length) : Nat) : Int) with hm
  have hm104 : (104 : Int) ≤ m := by rw [hm]; exact_mod_cast h104
  have hd : (4 : Int) ≤ m - 100 := by omega
  have hcs : chunkSizesOfCounts counts 5 =
      [pyTruncDiv (400 + 0 * (m - 100)) 4,
       pyTruncDiv (400 + 1 * (m - 100)) 4,
       pyTruncDiv (400 + 2 * (m - 100)) 4,
       pyTruncDiv (400 + 3 * (m - 100)) 4,
       pyTruncDiv (400 + 4 * (m - 100)) 4] := rfl
  have nonneg : ∀ k : Int, 0 ≤ k → (0:Int) ≤ 400 + k * (m - 100) := by
    intro k hk
    have : (0:Int) ≤ k * (m - 100) := mul_nonneg hk (by linarith)
    linarith
  have step : ∀ k : Int, 0 ≤ k →
      pyTruncDiv (400 + k * (m - 100)) 4 < pyTruncDiv (400 + (k + 1) * (m - 100)) 4 := by
    intro k hk
    rw [pyTruncDiv, if_pos (nonneg k hk), pyTruncDiv, if_pos (nonneg (k + 1) (by linarith))]
    rw [show (400:Int) + (k + 1) * (m - 100) = (400 + k * (m - 100)) + (m - 100) by ring]
    exact ediv4_lt_ediv4_add _ _ hd
  have k0 : pyTruncDiv (400 + 0 * (m - 100)) 4 = 100 := by
    rw [show (400:Int) + 0 * (m - 100) = 400 by ring]
    decide
  have k4 : pyTruncDiv (400 + 4 * (m - 100)) 4 = m := by
    rw [show (400:Int) + 4 * (m - 100) = 4 * m by ring, pyTruncDiv,
      if_pos (by linarith : (0:Int) ≤ 4 * m)]
    exact Int.mul_ediv_cancel_left _ (by norm_num)
  have s01 := step 0 (by norm_num)
  rw [show ((0:Int) + 1) = 1 by norm_num] at s01
  have s12 := step 1 (by norm_num)
  rw [show ((1:Int) + 1) = 2 by norm_num] at s12
  have s23 := step 2 (by norm_num)
  rw [show ((2:Int) + 1) = 3 by norm_num] at s23
  have s34 := step 3 (by norm_num)
  rw [show ((3:Int) + 1) = 4 by norm_num] at s34
  refine ⟨by rw [hcs]; rfl, ?_, ?_, ?_⟩
  · rw [hcs]
    simp only [List.chain'_cons, List.chain'_singleton, and_true]
    exact ⟨s01, s12, s23, s34⟩
  · rw [hcs]
    show some (pyTruncDiv (400 + 0 * (m - 100)) 4) = some 100
    rw [k0]
  · rw [hcs]
    show some (pyTruncDiv (400 + 4 * (m - 100)) 4) = some m
    rw [k4]

theorem mem_preSummary {c a : Nat} {x : PeripheralConfig}
    (h : x ∈ peripheralPreSummary c a) :
    x = emptyConfig ∨
    x = scaleConfig c a (maxChunksOf c a) baseConfig1 ∨
    x = scaleConfig c a (maxChunksOf c a) baseConfig2 ∨
    x = extensiveConfig (maxChunksOf c a) := by
  simp only [peripheralPreSummary, base_configs, List.map_cons, List.map_nil] at h
  by_cases h10 : 10 * c < a
  · rw [if_pos h10] at h
    simp only [List.append_assoc, List.cons_append, List.nil_append,
      List.mem_cons, List.mem_singleton, List.not_mem_nil, or_false] at h
    tauto
  · rw [if_neg h10] at h
    simp only [List.cons_append, List.nil_append, List.mem_cons,
      List.not_mem_nil, or_false] at h
    tauto

theorem summarize_counts (y : PeripheralConfig) :
    ∀ n ∈ cfgCounts (summarizeConfig y), n = 1 ∨ n ∈ cfgCounts y := by
  intro n hn
  obtain ⟨prevOpt, nextOpt⟩ := y
  cases prevOpt with
  | none =>
    simp only [summarizeConfig, cfgCounts, dirCounts, zoneCounts, Option.getD,
      Option.toList, List.nil_append, List.append_nil, List.cons_append,
      List.mem_cons, List.mem_append] at hn ⊢
    tauto
  | some p =>
    obtain ⟨ph, pm, pt⟩ := p
    simp only [summarizeConfig, cfgCounts, dirCounts, zoneCounts, Option.getD,
      Option.toList, List.nil_append, List.append_nil, List.cons_append,
      List.mem_cons, List.mem_append] at hn ⊢
    tauto

theorem preSummary_counts_le {c a : Nat} {x : PeripheralConfig}
    (hx : x ∈ peripheralPreSummary c a) :
    ∀ n ∈ cfgCounts x, n ≤ maxChunksOf c a := by
  intro n hn
  rcases mem_preSummary hx with h | h | h | h
  · subst h
    exact absurd hn (List.not_mem_nil n)
  · subst h
    have : cfgCounts (scaleConfig c a (maxChunksOf c a) baseConfig1) =
        [scaledCount c a (maxChunksOf c a) 1] := rfl
    rw [this] at hn
    rw [List.mem_singleton.mp hn]
    exact Nat.min_le_left _ _
  · subst h
    have : cfgCounts (scaleConfig c a (maxChunksOf c a) baseConfig2) =
        [scaledCount c a (maxChunksOf c a) 1, scaledCount c a (maxChunksOf c a) 1] := rfl
    rw [this] at hn
    rcases List.mem_cons.mp hn with h1 | h1
    · rw [h1]; exact Nat.min_le_left _ _
    · rw [List.mem_singleton.mp h1]; exact Nat.min_le_left _ _
  · subst h
    have : cfgCounts (extensiveConfig (maxChunksOf c a)) =
        [min 5 (maxChunksOf c a), min 2 (maxChunksOf c a)] := rfl
    rw [this] at hn
    rcases List.mem_cons.mp hn with h1 | h1
    · rw [h1]; exact Nat.min_le_right _ _
    · rw [List.mem_singleton.mp h1]; exact Nat.min_le_right _ _

theorem generate_counts_le {c a : Nat} {cfg : PeripheralConfig}
    (h : cfg ∈ generate_peripheral_configs c a) :
    ∀ n ∈ cfgCounts cfg, n ≤ maxChunksOf c a := by
  intro n hn
  have hone : 1 ≤ maxChunksOf c a := Nat.le_max_left 1 _
  simp only [generate_peripheral_configs] at h
  by_cases h5 : 5 * c < a
  · rw [if_pos h5] at h
    rcases pyDedup_mem _ _ _ h with h1 | h1
    · exact absurd h1 (List.not_mem_nil cfg)
    · rcases List.mem_append.mp h1 with h2 | h2
      · exact preSummary_counts_le h2 n hn
      · rcases List.mem_map.mp h2 with ⟨y, hy, hcfg⟩
        subst hcfg
        rcases summarize_counts y n hn with h3 | h3
        · rw [h3]; exact hone
        · exact preSummary_counts_le hy n h3
  · rw [if_neg h5] at h
    rcases pyDedup_mem _ _ _ h with h1 | h1
    · exact absurd h1 (List.not_mem_nil cfg)
    · exact preSummary_counts_le h1 n hn

theorem generate_head (c a : Nat) :
    (generate_peripheral_configs c a).head? = some emptyConfig := by
  simp only [generate_peripheral_configs, peripheralPreSummary, base_configs,
    List.map_cons, List.map_nil, List.cons_append, List.nil_append]
  by_cases h10 : 10 * c < a <;> by_cases h5 : 5 * c < a <;>
    simp only [h10, h5, if_true, if_false, List.cons_append, List.map_cons] <;>
    exact pyDedup_head emptyConfig _

/-! ## Claim theorems -/

/-- C1, counterexample. The claim reads the key transformation as
stripping an "input." prefix. The oracle key "xinput.y" has no such
prefix, and "xinput.y" is not a field of the first record, so the claim
requires a ValueError; but line 103 of the source is str.replace, which
removes the inner occurrence of "input." and yields "xy", a real field,
so the planner returns a plan. -/
theorem c1_counterexample :
    specStripLeadingInput "xinput.y" ∉ recordKeys [("xy", "v")] ∧
    get_split_config [[("xy", "v")]] ⟨"xinput.y", []⟩ =
      .ok { split_key := "xy", subprompt := [] } :=
  ⟨by decide, rfl⟩

/-- C1, amended: for every non-empty sample, if the oracle's split_key
with every occurrence of "input." removed (Python str.replace, the
transformation the code actually applies) is not a field of the first
record, _get_split_config raises ValueError and returns no plan. -/
theorem c1_missing_key_error (sample : List Record) (resp : SplitResponse)
    (r0 : Record) (h0 : sample.head? = some r0)
    (hk : stripInputKey resp.split_key ∉ recordKeys r0) :
    get_split_config sample resp =
      .error (.valueError (stripInputKey resp.split_key)) := by
  unfold get_split_config
  simp only [h0]
  rw [if_neg hk]

/-- Witness for c1_missing_key_error at a concrete input. -/
theorem c1_missing_key_error_witness :
    ([[("a", "1")]] : List Record).head? = some [("a", "1")] ∧
    stripInputKey "b" ∉ recordKeys [("a", "1")] ∧
    get_split_config [[("a", "1")]] ⟨"b", []⟩ =
      .error (.valueError (stripInputKey "b")) :=
  ⟨rfl, by decide, c1_missing_key_error _ _ _ rfl (by decide)⟩

/-- C2, counterexample. A sample with average word count 201 satisfies
the claim's L > 200 guard, but every chunk size is 100 because
int(201 / 2) = 100 leaves a zero step, so the output is not strictly
increasing. -/
theorem c2_counterexample :
    recordWordCounts "content" [[("content", docOf 201)]] = some [201] ∧
    (200 : ℚ) < ratAvg [201] ∧
    generate_chunk_sizes "content" [[("content", docOf 201)]] 5 =
      some [100, 100, 100, 100, 100] ∧
    ¬ List.Chain' (· < ·) ([100, 100, 100, 100, 100] : List Int) := by
  have hwc : wordCount (docOf 201) = 201 := wordCount_docOf 200
  have hrc : recordWordCounts "content" [[("content", docOf 201)]] =
      some [wordCount (docOf 201)] := rfl
  have hgen : generate_chunk_sizes "content" [[("content", docOf 201)]] 5 =
      (recordWordCounts "content" [[("content", docOf 201)]]).map
        (fun counts => chunkSizesOfCounts counts 5) := rfl
  refine ⟨by rw [hrc, hwc], by norm_num [ratAvg], ?_, ?_⟩
  · rw [hgen, hrc, hwc]
    decide
  · intro hch
    rw [List.chain'_cons] at hch
    exact absurd hch.1 (by norm_num)

/-- C2, amended: for every sample with average split-key word count L at
least 208 (so that floor(L / 2) is at least 104; L > 200 is not enough,
see the counterexample), _generate_chunk_sizes with num_chunks = 5
returns a sequence of length 5 that is strictly increasing, starts at
100, and ends at floor(L / 2). -/
theorem c2_chunk_size_space (split_key : String) (sample : List Record)
    (counts : List Nat) (sizes : List Int)
    (hc : recordWordCounts split_key sample = some counts)
    (hs : generate_chunk_sizes split_key sample 5 = some sizes)
    (hL : (208 : ℚ) ≤ ratAvg counts) :
    sizes.length = 5 ∧ List.Chain' (· < ·) sizes ∧
    sizes.head? = some 100 ∧ sizes.getLast? = some ⌊ratAvg counts / 2⌋ := by
  have hsz : sizes = chunkSizesOfCounts counts 5 := by
    unfold generate_chunk_sizes at hs
    split at hs
    · exact absurd hs (by simp)
    · rw [hc] at hs
      simp only [Option.map_some'] at hs
      exact (Option.some.inj hs).symm
  have h104 : 104 ≤ counts.sum / (2 * counts.length) := by
    have hfl : (104 : Int) ≤ ⌊ratAvg counts / 2⌋ := by
      rw [Int.le_floor]
      push_cast
      linarith
    rw [← maxChunk_eq_floor] at hfl
    exact_mod_cast hfl
  obtain ⟨hlen, hchain, hhead, hlast⟩ := chunkSizes_core counts h104
  rw [maxChunk_eq_floor] at hlast
  subst hsz
  exact ⟨hlen, hchain, hhead, hlast⟩

/-- Witness for c2_chunk_size_space at a concrete 208-word sample. -/
theorem c2_chunk_size_space_witness :
    recordWordCounts "content" [[("content", docOf 208)]] = some [208] ∧
    generate_chunk_sizes "content" [[("content", docOf 208)]] 5 =
      some [100, 101, 102, 103, 104] ∧
    (208 : ℚ) ≤ ratAvg [208] ∧
    (([100, 101, 102, 103, 104] : List Int).length = 5 ∧
      List.Chain' (· < ·) ([100, 101, 102, 103, 104] : List Int) ∧
      ([100, 101, 102, 103, 104] : List Int).head? = some 100 ∧
      ([100, 101, 102, 103, 104] : List Int).getLast? =
        some ⌊ratAvg [208] / 2⌋) := by
  have hwc : wordCount (docOf 208) = 208 := wordCount_docOf 207
  have hrc : recordWordCounts "content" [[("content", docOf 208)]] =
      some [wordCount (docOf 208)] := rfl
  have hA : recordWordCounts "content" [[("content", docOf 208)]] =
      some [208] := by rw [hrc, hwc]
  have hB : generate_chunk_sizes "content" [[("content", docOf 208)]] 5 =
      some [100, 101, 102, 103, 104] := by
    have hgen : generate_chunk_sizes "content" [[("content", docOf 208)]] 5 =
        (recordWordCounts "content" [[("content", docOf 208)]]).map
          (fun counts => chunkSizesOfCounts counts 5) := rfl
    rw [hgen, hA]
    decide
  have hC : (208 : ℚ) ≤ ratAvg [208] := by norm_num [ratAvg]
  exact ⟨hA, hB, hC, c2_chunk_size_space "content" _ [208] _ hA hB hC⟩

/-- C3: the Peripheral-Config Space Generator is deterministic: for every
pair of positive integers, two calls with the same arguments return the
same ordered sequence of configurations. In the embedding the generator
is a pure function of its two numeric inputs (the source touches no
random or other mutable state), so the two calls are literally equal. -/
theorem c3_deterministic (chunk_size avg_doc_size : Nat)
    (h1 : 0 < chunk_size) (h2 : 0 < avg_doc_size) :
    generate_peripheral_configs chunk_size avg_doc_size =
      generate_peripheral_configs chunk_size avg_doc_size := rfl

/-- Witness for c3_deterministic at a concrete input. -/
theorem c3_deterministic_witness :
    0 < 3 ∧ 0 < 7 ∧
    generate_peripheral_configs 3 7 = generate_peripheral_configs 3 7 :=
  ⟨by decide, by decide, c3_deterministic 3 7 (by decide) (by decide)⟩

/-- C4: for every pair of positive integers, the generated
PeripheralConfigSpace has the empty configuration as its first element,
and no two of its elements are structurally equal. -/
theorem c4_empty_first_and_unique (chunk_size avg_doc_size : Nat)
    (h1 : 0 < chunk_size) (h2 : 0 < avg_doc_size) :
    (generate_peripheral_configs chunk_size avg_doc_size).head? =
      some emptyConfig ∧
    (generate_peripheral_configs chunk_size avg_doc_size).Nodup := by
  constructor
  · exact generate_head chunk_size avg_doc_size
  · simp only [generate_peripheral_configs]
    exact pyDedup_nodup _ _ List.nodup_nil

/-- Witness for c4_empty_first_and_unique at a concrete input. -/
theorem c4_empty_first_and_unique_witness :
    0 < 2 ∧ 0 < 10 ∧
    ((generate_peripheral_configs 2 10).head? = some emptyConfig ∧
      (generate_peripheral_configs 2 10).Nodup) :=
  ⟨by decide, by decide, c4_empty_first_and_unique 2 10 (by decide) (by decide)⟩

/-- C5: for every pair of positive integers, every count value appearing
in any direction and zone of any generated configuration is at most
max_chunks = max(1, avg_doc_size // chunk_size). -/
theorem c5_counts_bounded (chunk_size avg_doc_size : Nat)
    (h1 : 0 < chunk_size) (h2 : 0 < avg_doc_size) :
    ∀ cfg ∈ generate_peripheral_configs chunk_size avg_doc_size,
      ∀ n ∈ cfgCounts cfg, n ≤ max 1 (avg_doc_size / chunk_size) :=
  fun _ hcfg n hn => generate_counts_le hcfg n hn

/-- Witness for c5_counts_bounded at a concrete input. -/
theorem c5_counts_bounded_witness :
    0 < 2 ∧ 0 < 10 ∧
    (∀ cfg ∈ generate_peripheral_configs 2 10,
      ∀ n ∈ cfgCounts cfg, n ≤ max 1 (10 / 2)) :=
  ⟨by decide, by decide, c5_counts_bounded 2 10 (by decide) (by decide)⟩

/-- C6, counterexample. When the necessity check answers true with a
reason, the claim says the final plan merges that reason with the derived
metadata config; but _determine_metadata_needs returns the
_get_metadata_config dict unchanged, which never contains the necessity
reason. -/
theorem c6_counterexample :
    (determine_metadata_needs ⟨true, "needs headers"⟩
        ⟨"extract the title", [("title", "string")]⟩).1 ≠
      { needs_metadata := true, reason := some "needs headers",
        metadata_prompt := some "extract the title",
        output_schema := some [("title", "string")] } := by
  decide

/-- C6, amended: if the necessity check returns needs_metadata = false,
the final MetadataPlan is exactly the necessity result and no second
oracle call is made; if it returns true, the final plan is the derived
metadata config (metadata_prompt and output_schema) with needs_metadata
forced true, a second oracle call is made, and the necessity result's
reason is discarded rather than merged. -/
theorem c6_composition (necResp : NecessityResult)
    (configResp : MetadataOracleResult) :
    determine_metadata_needs necResp configResp =
      if necResp.needs_metadata then
        ({ needs_metadata := true, reason := none,
           metadata_prompt := some configResp.metadata_prompt,
           output_schema := some configResp.output_schema }, 2)
      else (necessityToPlan necResp, 1) := rfl

/-- C7: for every oracle response accepted by the Split Planner, every
template variable referenced by the subprompt of the returned SplitPlan
is the canonical chunk-content variable input.chunk_content. -/
theorem c7_canonical_subprompt_vars (sample : List Record)
    (resp : SplitResponse) (plan : SplitPlan)
    (h : get_split_config sample resp = .ok plan) :
    ∀ v, JinjaToken.var v ∈ plan.subprompt → v = "input.chunk_content" := by
  intro v hv
  rw [get_split_config_ok_subprompt h] at hv
  exact rewriteSubprompt_canonical resp.subprompt v hv

/-- Witness for c7_canonical_subprompt_vars at a concrete input. -/
theorem c7_canonical_subprompt_vars_witness :
    get_split_config [[("content", "text")]]
        ⟨"content", [JinjaToken.var "content"]⟩ =
      .ok { split_key := "content",
            subprompt := [JinjaToken.var "input.chunk_content"] } ∧
    JinjaToken.var "input.chunk_content" ∈
      (SplitPlan.mk "content" [JinjaToken.var "input.chunk_content"]).subprompt ∧
    "input.chunk_content" = "input.chunk_content" :=
  ⟨rfl, by decide,
    c7_canonical_subprompt_vars [[("content", "text")]]
      ⟨"content", [JinjaToken.var "content"]⟩
      { split_key := "content",
        subprompt := [JinjaToken.var "input.chunk_content"] }
      rfl "input.chunk_content" (by decide)⟩

/-- C8: evaluation of the code at the failing input. For a sample whose
document has 2 words and chunk_size 5, the claim (and the spec) say the
start offset is drawn from [0, max(0, 2 - 5)] = [0, 0] and the draw
succeeds with 0; but the source computes
max(0, random.randint(0, len(words) - chunk_size)), with the max applied
outside the randint call, so random.randint(0, -3) raises ValueError for
every draw and no offset is produced. -/
theorem c8_short_doc_draw_fails (choice r : Nat) :
    determine_context_start [[("content", "a b")]] "content" 5 choice r =
      none := by
  unfold determine_context_start
  rw [show ([[("content", "a b")]] : List Record).length = 1 from rfl,
    Nat.mod_one]
  rfl

/-- C9, counterexample. For a sample with average split-key word count
1000, _generate_chunk_sizes does not return the sequence
[100, 325, 550, 775, 1000] stated in the spec example (that sequence
interpolates up to L instead of up to floor(L / 2)). -/
theorem c9_counterexample :
    recordWordCounts "content" [[("content", docOf 1000)]] = some [1000] ∧
    generate_chunk_sizes "content" [[("content", docOf 1000)]] 5 ≠
      some [100, 325, 550, 775, 1000] := by
  have hwc : wordCount (docOf 1000) = 1000 := wordCount_docOf 999
  have hrc : recordWordCounts "content" [[("content", docOf 1000)]] =
      some [wordCount (docOf 1000)] := rfl
  have hgen : generate_chunk_sizes "content" [[("content", docOf 1000)]] 5 =
      (recordWordCounts "content" [[("content", docOf 1000)]]).map
        (fun counts => chunkSizesOfCounts counts 5) := rfl
  constructor
  · rw [hrc, hwc]
  · rw [hgen, hrc, hwc]
    decide

/-- C9, amended: for a sample with average split-key word count 1000 and
num_chunks = 5, _generate_chunk_sizes returns exactly
[100, 200, 300, 400, 500] (the linspace from 100 to
floor(1000 / 2) = 500). -/
theorem c9_example_value :
    generate_chunk_sizes "content" [[("content", docOf 1000)]] 5 =
      some [100, 200, 300, 400, 500] := by
  have hwc : wordCount (docOf 1000) = 1000 := wordCount_docOf 999
  have hrc : recordWordCounts "content" [[("content", docOf 1000)]] =
      some [wordCount (docOf 1000)] := rfl
  have hgen : generate_chunk_sizes "content" [[("content", docOf 1000)]] 5 =
      (recordWordCounts "content" [[("content", docOf 1000)]]).map
        (fun counts => chunkSizesOfCounts counts 5) := rfl
  rw [hgen, hrc, hwc]
  decide

/-- C10: for the empty DataSample, _get_split_config never returns a
SplitPlan, whatever the oracle responds: the validation step indexes
input_data_sample[0], which raises IndexError before any plan can be
returned. -/
theorem c10_empty_sample_index_error (resp : SplitResponse) :
    get_split_config [] resp = .error .indexError := rfl
